import Mathlib

set_option linter.unusedVariables false

namespace CompliantGuard

/-!
# Verification of the customer-isolated encryption and data-lifecycle layer

A shallow embedding, in Lean 4, of the core subsystem of the ThemisGuard /
CompliantGuard backend:

* `backend/services/encryption_service.py` — `CustomerEncryptionService`
  (envelope encryption, field encryption, key deletion),
* `backend/services/customer_data_service.py` — `CustomerDataService`
  (role-gated data operations with audit logging),
* `backend/services/data_retention_service.py` — `DataRetentionService`
  (retention policies, the expiry sweep, and the deletion executor).

Python dictionaries are modelled as association lists with unique keys,
machine-external collaborators (AWS KMS, the `cryptography.fernet` AEAD
primitive, SHA-256, the `json` module, DynamoDB and S3) are modelled at
their interface boundary as ideal, deterministic services threaded through
an explicit state; every fallible operation returns `Except`.
-/

/-! ## Python dictionaries

A Python `dict` with string keys is modelled as an association list with
unique keys.  `dget` is subscript/`.get` lookup, `dcontains` is the `in`
operator, `dset` is item assignment (replaces in place, appends if the key
is new, matching insertion-order semantics), `ddel` is `del`. -/

abbrev Dict (α : Type) := List (String × α)

def dget {α : Type} (d : Dict α) (k : String) : Option α :=
  (d.find? (fun p => p.1 == k)).map (·.2)

def dcontains {α : Type} (d : Dict α) (k : String) : Bool :=
  d.any (fun p => p.1 == k)

def dset {α : Type} (d : Dict α) (k : String) (v : α) : Dict α :=
  if dcontains d k then d.map (fun p => if p.1 == k then (k, v) else p)
  else d ++ [(k, v)]

def ddel {α : Type} (d : Dict α) (k : String) : Dict α :=
  d.filter (fun p => p.1 != k)

def dkeys {α : Type} (d : Dict α) : List String := d.map (·.1)

/-! ## JSON values

The payloads handled by the services are JSON-serializable Python values
(`Dict[str, Any]`).  `json.dumps(·, separators=(",", ":"), sort_keys=True)`
is an injective canonical serialization of such values and `json.loads` is
its left inverse; the embedding therefore identifies a serialized text with
the value it denotes and treats dumps/loads as the identity at this
boundary. -/

inductive JVal where
  | jnull
  | jbool (b : Bool)
  | jnum (n : Int)
  | jstr (s : String)
  | jarr (xs : List JVal)
  | jobj (fields : List (String × JVal))

/-- Field lookup on a JSON object (`d.get(k)` on the decoded dict). -/
def jget (v : JVal) (k : String) : Option JVal :=
  match v with
  | .jobj fields => dget fields k
  | _ => none

/-!
The serialization `json.dumps(·, separators=(",", ":"), sort_keys=True)`
used by `encrypt_customer_data` both as the Fernet plaintext and as the
input of the SHA-256 content hash.  `sort_keys=True` makes the text
canonical in the key order of an (unordered) Python dict; a `JVal` object
already carries its fields in one fixed order, so the model serializes in
that order.  String escaping is immaterial to the claims and is modelled as
the identity.
-/
mutual
def jdumps : JVal → String
  | .jnull => "null"
  | .jbool true => "true"
  | .jbool false => "false"
  | .jnum n => toString n
  | .jstr s => "\"" ++ s ++ "\""
  | .jarr xs => "[" ++ jdumpsArr xs ++ "]"
  | .jobj fs => "\x7b" ++ jdumpsObj fs ++ "\x7d"

def jdumpsArr : List JVal → String
  | [] => ""
  | [x] => jdumps x
  | x :: y :: xs => jdumps x ++ "," ++ jdumpsArr (y :: xs)

def jdumpsObj : List (String × JVal) → String
  | [] => ""
  | [(k, v)] => "\"" ++ k ++ "\":" ++ jdumps v
  | (k, v) :: q :: fs => "\"" ++ k ++ "\":" ++ jdumps v ++ "," ++ jdumpsObj (q :: fs)
end

/-- SHA-256 hex digest (`hashlib.sha256(text).hexdigest()`), an external
primitive modelled as an ideal collision-free digest and therefore
represented by the digested text itself. -/
def sha256Hex (text : String) : String := text

/-! ## Bit strings

The ciphertext bytes stored in `encrypted_data` are modelled as bit lists,
so that the tamper-detection property can quantify over single-bit flips.
(The base64 text stored in DynamoDB is a bijective recoding of these bytes;
flipping a bit of it either leaves the base64 alphabet, failing the decode,
or alters the decoded bits, so working on the raw bits loses nothing.) -/

/-- Little-endian bits of `n`, padded/truncated to width `w`. -/
def natToBits : Nat → Nat → List Bool
  | 0, _ => []
  | w + 1, n => (n % 2 == 1) :: natToBits w (n / 2)

def bitsToNat : List Bool → Nat
  | [] => 0
  | b :: bs => (if b then 1 else 0) + 2 * bitsToNat bs

/-- Flip the bit at position `i` (out-of-range positions are untouched
except for the harmless `set` no-op). -/
def flipBit (i : Nat) (bs : List Bool) : List Bool :=
  bs.set i (!(bs.getD i false))

/-! ## The Fernet AEAD primitive (`cryptography.fernet.Fernet`)

Fernet is an authenticated encryption scheme: a token decrypts under a key
only if it is byte-for-byte a token that was produced under that same key;
any modification is rejected by the HMAC check.  The primitive is external
to the repository and is modelled ideally: the state carries a log of all
encryptions performed, a token is the (redundantly encoded) index of its
log entry, and decryption recovers the entry only from an untampered token
whose key matches.  The redundant encoding realizes the HMAC: a token is
two identical copies of the index bits, and any single-bit flip breaks the
copy equality exactly as a flip breaks a real MAC. -/

/-- One log entry per `Fernet(key).encrypt(payload)` call: the (raw DEK)
key and the serialized plaintext that was encrypted. -/
abbrev FernetLog := List (Nat × JVal)

def fernetTokenBits (idx : Nat) : List Bool :=
  natToBits (idx + 1) idx ++ natToBits (idx + 1) idx

def fernetEncrypt (log : FernetLog) (key : Nat) (payload : JVal) :
    List Bool × FernetLog :=
  (fernetTokenBits log.length, log ++ [(key, payload)])

def fernetDecrypt (log : FernetLog) (key : Nat) (ct : List Bool) :
    Option JVal :=
  if ct.length % 2 != 0 then none
  else
    let h1 := ct.take (ct.length / 2)
    let h2 := ct.drop (ct.length / 2)
    if h1 = h2 then
      match log[bitsToNat h1]? with
      | some (k, payload) => if k = key then some payload else none
      | none => none
    else none

/-! ## AWS KMS (external key-management service)

The key service is modelled as an ideal service threaded through a
`KmsWorld`: `generate_data_key` hands out a fresh DEK together with a
wrapped blob recorded, with its key id and encryption context, in a wrap
table; `kms.decrypt` returns the DEK only for a recorded blob whose stored
context equals the supplied one (the KMS context binding).  `kmsCalls`
counts every network call made to the key service. -/

structure WrapEntry where
  keyId : String
  ctx : Dict String
  dek : Nat

structure KmsWorld where
  fresh : Nat
  wrapTable : List (Nat × WrapEntry)
  fernetLog : FernetLog
  kmsCalls : Nat

/-- Well-formed world: every wrapped blob id was allocated below the
fresh-id counter (true of every world reachable from the empty one). -/
def KmsWorld.Wf (w : KmsWorld) : Prop := ∀ p ∈ w.wrapTable, p.1 < w.fresh

def keyIdFor (customer_id : String) : String := "key-" ++ customer_id

/-- `get_customer_key_id`: describe-or-create of the per-tenant KMS key,
resolved through the tenant alias; one key-service call. -/
def getCustomerKeyId (customer_id : String) (w : KmsWorld) :
    String × KmsWorld :=
  (keyIdFor customer_id, { w with kmsCalls := w.kmsCalls + 1 })

/-- `kms.generate_data_key`: returns (plaintext DEK, wrapped blob id). -/
def generateDataKey (w : KmsWorld) (keyId : String) (ctx : Dict String) :
    (Nat × Nat) × KmsWorld :=
  ((w.fresh, w.fresh),
   { w with
      fresh := w.fresh + 1
      wrapTable := w.wrapTable ++ [(w.fresh, ⟨keyId, ctx, w.fresh⟩)]
      kmsCalls := w.kmsCalls + 1 })

/-- `kms.decrypt` on a wrapped DEK: fails unless the blob is genuine and
the supplied encryption context matches the wrap-time context. -/
def kmsDecrypt (w : KmsWorld) (blob : Nat) (ctx : Dict String) :
    Option Nat × KmsWorld :=
  (match w.wrapTable.find? (fun p => p.1 == blob) with
   | some p => if p.2.ctx = ctx then some p.2.dek else none
   | none => none,
   { w with kmsCalls := w.kmsCalls + 1 })

/-! ## `CustomerEncryptionService` (`encryption_service.py`) -/

/-- The stored values of an encrypted record (a `Dict[str, Any]`):
strings, wrapped-blob ids, ciphertext bytes, encryption contexts, and
nested dictionaries (encrypted fields). -/
inductive RVal where
  | str (s : String)
  | num (n : Nat)
  | bits (bs : List Bool)
  | rctx (c : Dict String)
  | rdict (d : List (String × RVal))

/-- Python `v != some_string` specialized: true when `v` is that string. -/
def rvalIsStr (v : RVal) (s : String) : Bool :=
  match v with
  | .str t => t == s
  | _ => false

/-- `dict.update`: apply all entries of `upd` over `base`. -/
def ctxUpdate (base upd : Dict String) : Dict String :=
  upd.foldl (fun acc p => dset acc p.1 p.2) base

/-- `context.get(k, dflt)`. -/
def ctxGetD (c : Dict String) (k dflt : String) : String :=
  (dget c k).getD dflt

/-- The error taxonomy of `decrypt_customer_data`, named after the spec
(§7); each constructor models one raise site of the source function:
`missingField f` is the `ValueError` of the record-format validation,
`tenantMismatch` is the `PermissionError` of the customer-boundary check,
`keyUnavailable` is the `PermissionError` wrapping a failed KMS DEK
unwrap, and `integrityViolation` is the `ValueError` wrapping the whole
data-decryption block, raised both when the authenticated decryption
rejects the ciphertext and when the content-hash check fails. -/
inductive DecErr where
  | missingField (f : String)
  | tenantMismatch
  | keyUnavailable
  | integrityViolation
  deriving DecidableEq

/-- `CustomerEncryptionService.encrypt_customer_data(data, context)` for
the service bound to `customer_id`.  `now` is the value of
`datetime.utcnow()` during the call. -/
def encryptCustomerData (customer_id : String) (data : JVal)
    (context : Dict String) (now : Nat) (w : KmsWorld) :
    Dict RVal × KmsWorld :=
  let requiredContext :=
    ctxUpdate
      [("customer_id", customer_id),
       ("purpose", ctxGetD context "purpose" "data_protection"),
       ("timestamp", toString now)]
      context
  let kw := getCustomerKeyId customer_id w
  let gw := generateDataKey kw.2 kw.1 requiredContext
  let plaintextData := jdumps data
  let fe := fernetEncrypt gw.2.fernetLog gw.1.1 data
  ([("encrypted_data", .bits fe.1),
    ("encrypted_dek", .num gw.1.2),
    ("encryption_context", .rctx requiredContext),
    ("key_id", .str kw.1),
    ("algorithm", .str "AES-256-GCM"),
    ("customer_id", .str customer_id),
    ("encrypted_at", .str (toString now)),
    ("data_hash", .str (sha256Hex plaintextData)),
    ("format_version", .str "1.0")],
   { gw.2 with fernetLog := fe.2 })

/-- `CustomerEncryptionService.decrypt_customer_data(encrypted_record,
context)` for the service bound to `customer_id`.  The `context` argument
is accepted and unused, exactly as in the source, which validates against
the context stored in the record. -/
def decryptCustomerData (customer_id : String) (record : Dict RVal)
    (context : Dict String) (w : KmsWorld) :
    Except DecErr JVal × KmsWorld :=
  match ["encrypted_data", "encrypted_dek", "encryption_context",
         "customer_id"].find? (fun f => !(dcontains record f)) with
  | some f => (.error (.missingField f), w)
  | none =>
    if !(match dget record "customer_id" with
         | some v => rvalIsStr v customer_id
         | none => false) then
      (.error .tenantMismatch, w)
    else
      match dget record "encrypted_dek", dget record "encryption_context" with
      | some (.num blob), some (.rctx c) =>
        let kd := kmsDecrypt w blob c
        match kd.1 with
        | none => (.error .keyUnavailable, kd.2)
        | some dek =>
          match dget record "encrypted_data" with
          | some (.bits ct) =>
            match fernetDecrypt kd.2.fernetLog dek ct with
            | none => (.error .integrityViolation, kd.2)
            | some payload =>
              let decryptedText := jdumps payload
              match dget record "data_hash" with
              | some v =>
                if rvalIsStr v (sha256Hex decryptedText) then
                  (.ok payload, kd.2)
                else (.error .integrityViolation, kd.2)
              | none => (.ok payload, kd.2)
          | _ => (.error .integrityViolation, kd.2)
      | _, _ => (.error .keyUnavailable, w)

/-! ## Field-level encryption (`FieldEncryptionMixin`) -/

/-- Prefix test on character lists (pattern first). -/
def listStartsWith : List Char → List Char → Bool
  | [], _ => true
  | _ :: _, [] => false
  | p :: ps, c :: cs => p == c && listStartsWith ps cs

def replaceChars : Nat → List Char → List Char → List Char → List Char
  | 0, s, _, _ => s
  | _ + 1, [], _, _ => []
  | fuel + 1, c :: cs, pat, rep =>
    if listStartsWith pat (c :: cs) then
      rep ++ replaceChars fuel ((c :: cs).drop pat.length) pat rep
    else c :: replaceChars fuel cs pat rep

/-- Python `s.replace(pat, rep)`: replace all non-overlapping occurrences
left to right (the source only uses nonempty patterns). -/
def pyReplace (s pat rep : String) : String :=
  ⟨replaceChars s.length s.data pat.data rep.data⟩

/-- Python `s.endswith(tail)`. -/
def strEndsWith (s tail : String) : Bool :=
  listStartsWith tail.data.reverse s.data.reverse

/-- The truncated searchable hash
`hashlib.sha256(value).hexdigest()[:16]` of `encrypt_field`. -/
def fieldHash (field_value : String) : String :=
  (sha256Hex field_value).take 16

/-- `CustomerEncryptionService.encrypt_field(field_value, field_name)`. -/
def encryptField (customer_id : String) (field_value field_name : String)
    (now : Nat) (w : KmsWorld) : Dict RVal × KmsWorld :=
  let context :=
    [("customer_id", customer_id),
     ("field_name", field_name),
     ("purpose", "field_encryption"),
     ("timestamp", toString now)]
  let ed := encryptCustomerData customer_id
    (.jobj [("field_value", .jstr field_value)]) context now w
  ([("encrypted_value", (dget ed.1 "encrypted_data").getD (.str "")),
    ("encrypted_dek", (dget ed.1 "encrypted_dek").getD (.str "")),
    ("encryption_context", (dget ed.1 "encryption_context").getD (.str "")),
    ("field_hash", .str (fieldHash field_value)),
    ("encrypted_at", (dget ed.1 "encrypted_at").getD (.str ""))],
   ed.2)

/-- `CustomerEncryptionService.decrypt_field(encrypted_field)`:
reconstructs an encrypted-record dict and delegates to
`decrypt_customer_data`; a missing key of the field dict (a Python
`KeyError`) and a non-string `field_value` payload (which
`encrypt_field` never produces) are both mapped to a `missingField`
failure. -/
def decryptField (customer_id : String) (encrypted_field : Dict RVal)
    (w : KmsWorld) : Except DecErr String × KmsWorld :=
  match dget encrypted_field "encrypted_value",
        dget encrypted_field "encrypted_dek",
        dget encrypted_field "encryption_context" with
  | some ev, some edek, some ectx =>
    let record :=
      [("encrypted_data", ev),
       ("encrypted_dek", edek),
       ("encryption_context", ectx),
       ("customer_id", RVal.str customer_id)]
    let dd := decryptCustomerData customer_id record [] w
    match dd.1 with
    | .ok v =>
      match jget v "field_value" with
      | some (.jstr s) => (.ok s, dd.2)
      | _ => (.error (.missingField "field_value"), dd.2)
    | .error e => (.error e, dd.2)
  | _, _, _ => (.error (.missingField "encrypted_value"), w)

/-- `FieldEncryptionMixin.decrypt_sensitive_fields(encrypted_data)`: for
every `*_encrypted` key of the input dict, attempt `decrypt_field`; on
success replace the encrypted entry (and drop the `*_hash` entry) by the
plaintext, on any failure keep the field in its encrypted form and
continue — the function itself never raises. -/
def decryptSensitiveFields (customer_id : String)
    (encrypted_data : Dict RVal) (w : KmsWorld) : Dict RVal × KmsWorld :=
  let encryptedFieldNames :=
    ((dkeys encrypted_data).filter (fun k => strEndsWith k "_encrypted")).map
      (fun k => pyReplace k "_encrypted" "")
  encryptedFieldNames.foldl
    (fun acc field_name =>
      let encryptedFieldKey := field_name ++ "_encrypted"
      if dcontains encrypted_data encryptedFieldKey then
        match dget encrypted_data encryptedFieldKey with
        | some (.rdict ef) =>
          let dr := decryptField customer_id ef acc.2
          match dr.1 with
          | .ok v =>
            let d1 := dset acc.1 field_name (.str v)
            let d2 := ddel d1 encryptedFieldKey
            let d3 :=
              if dcontains d2 (field_name ++ "_hash") then
                ddel d2 (field_name ++ "_hash")
              else d2
            (d3, dr.2)
          | .error _ => (acc.1, dr.2)
        | _ => acc
      else acc)
    (encrypted_data, w)

/-! ## `CustomerDataService` (`customer_data_service.py`) -/

inductive Permission where
  | readOwnData
  | writeOwnData
  | readCustomerData
  | writeCustomerData
  | deleteCustomerData
  | exportCustomerData
  deriving DecidableEq

inductive Role where
  | customerUser
  | customerAdmin
  | systemAdmin
  | readonlyAnalyst
  deriving DecidableEq

/-- `ROLE_PERMISSIONS`: the static role-to-permission table.  System
admins and readonly analysts are mapped to the empty set (the source
comments: system admins cannot access customer data directly; analysts
only get aggregated, anonymized data). -/
def rolePermissions : Role → List Permission
  | .customerUser => [.readOwnData, .writeOwnData]
  | .customerAdmin =>
    [.readOwnData, .writeOwnData, .readCustomerData, .writeCustomerData,
     .deleteCustomerData, .exportCustomerData]
  | .systemAdmin => []
  | .readonlyAnalyst => []

structure CustomerDataService where
  customer_id : String
  user_id : String
  user_role : Role

/-- `_has_permission`. -/
def hasPermission (svc : CustomerDataService) (p : Permission) : Bool :=
  (rolePermissions svc.user_role).contains p

/-- `_validate_customer_access`, invoked by `__init__`. -/
def validateCustomerAccess (user_role : Role) : Except String Unit :=
  if user_role = .systemAdmin then
    .error "System admins cannot access customer data directly"
  else .ok ()

/-- `CustomerDataService(customer_id, user_id, user_role, ...)`: the
constructor validates access before a service instance exists, so no
operation of the service is ever reachable for a system admin. -/
def initCustomerDataService (customer_id user_id : String)
    (user_role : Role) : Except String CustomerDataService :=
  match validateCustomerAccess user_role with
  | .error e => .error e
  | .ok _ => .ok ⟨customer_id, user_id, user_role⟩

/-- `AccessResult` of `backend/models/audit.py` (`PARTIAL` rendered as
`partialResult`). -/
inductive AccessResult where
  | success
  | denied
  | error
  | notFound
  | partialResult
  deriving DecidableEq

structure AuditRec where
  user_id : String
  customer_id : String
  action : String
  resource_type : String
  resource_id : Option String
  result : AccessResult
  error_message : Option String
  deriving DecidableEq

/-- State of the external key service as seen by
`delete_customer_key` / the deletion executor: reachability, the
scheduled key destructions (key id, pending window in days) and the
deleted aliases. -/
structure KeyService where
  reachable : Bool
  scheduledDeletions : List (String × Nat)
  deletedAliases : List String
  deriving DecidableEq

/-- `CustomerEncryptionService.delete_customer_key`: schedules destruction
of the tenant key (7-day minimum window) and removes the alias, returning
`True`; any failure to reach the key service is caught inside the function
and reported as `False` — it never raises. -/
def deleteCustomerKey (customer_id : String) (ks : KeyService) :
    Bool × KeyService :=
  if ks.reachable then
    (true,
     { ks with
        scheduledDeletions :=
          ks.scheduledDeletions ++ [(keyIdFor customer_id, 7)]
        deletedAliases :=
          ks.deletedAliases ++ ["alias/customer-" ++ customer_id ++ "-key"] })
  else (false, ks)

/-- The mutable state surrounding one `CustomerDataService`: the
key-service world of the envelope engine, the tenant scans table, the
object store, the audit sink, and counters.  `engineCalls` counts the
invocations of the Envelope Engine (`encrypt_customer_data` /
`decrypt_customer_data`). -/
structure SvcState where
  world : KmsWorld
  keyService : KeyService
  scans : Dict (Dict RVal)
  s3Objects : List String
  audits : List AuditRec
  engineCalls : Nat
  uuidCounter : Nat
  now : Nat

/-- `_audit_access`. -/
def auditAccess (svc : CustomerDataService) (action resource_type : String)
    (resource_id : Option String) (result : AccessResult)
    (error_message : Option String) (st : SvcState) : SvcState :=
  { st with
      audits := st.audits ++
        [⟨svc.user_id, svc.customer_id, action, resource_type, resource_id,
          result, error_message⟩] }

/-- Errors raised by the data operations: `PermissionError` denials and
re-raised engine failures. -/
inductive SvcErr where
  | permissionError (msg : String)
  | opError (e : DecErr)
  deriving DecidableEq

def strStartsWith (s head : String) : Bool :=
  listStartsWith head.data s.data

/-- `store_scan_data(scan_data)`. -/
def storeScanData (svc : CustomerDataService) (scan_data : Dict JVal)
    (st : SvcState) : Except SvcErr String × SvcState :=
  if !(hasPermission svc .writeCustomerData) then
    (.error (.permissionError "Insufficient permissions to store scan data"),
     auditAccess svc "store_scan_data" "scan_data" none .denied none st)
  else
    let scan_id := "uuid-" ++ toString st.uuidCounter
    let st1 := { st with uuidCounter := st.uuidCounter + 1 }
    let enriched :=
      dset (dset (dset (dset (dset (dset scan_data
        "scan_id" (.jstr scan_id))
        "customer_id" (.jstr svc.customer_id))
        "created_by" (.jstr svc.user_id))
        "created_at" (.jstr (toString st1.now)))
        "data_classification" (.jstr "phi"))
        "version" (.jstr "1.0")
    let enc := encryptCustomerData svc.customer_id (.jobj enriched)
      [("customer_id", svc.customer_id), ("purpose", "compliance_scan"),
       ("user_id", svc.user_id)] st1.now st1.world
    let st2 := { st1 with
      world := enc.2
      engineCalls := st1.engineCalls + 1
      scans := dset st1.scans scan_id enc.1 }
    (.ok scan_id,
     auditAccess svc "store_scan_data" "scan_data" (some scan_id)
       .success none st2)

/-- `get_scan_data(scan_id)`. -/
def getScanData (svc : CustomerDataService) (scan_id : String)
    (st : SvcState) : Except SvcErr (Option JVal) × SvcState :=
  if !(hasPermission svc .readCustomerData) then
    (.error (.permissionError "Insufficient permissions to read scan data"),
     auditAccess svc "get_scan_data" "scan_data" (some scan_id)
       .denied none st)
  else
    match dget st.scans scan_id with
    | none =>
      (.ok none,
       auditAccess svc "get_scan_data" "scan_data" (some scan_id)
         .notFound none st)
    | some item =>
      let dec := decryptCustomerData svc.customer_id item
        [("customer_id", svc.customer_id), ("purpose", "data_retrieval"),
         ("user_id", svc.user_id)] st.world
      let st1 := { st with world := dec.2, engineCalls := st.engineCalls + 1 }
      match dec.1 with
      | .ok d =>
        (.ok (some d),
         auditAccess svc "get_scan_data" "scan_data" (some scan_id)
           .success none st1)
      | .error e =>
        (.error (.opError e),
         auditAccess svc "get_scan_data" "scan_data" (some scan_id)
           .error (some "decrypt failed") st1)

/-- The reduced listing entry built by `list_customer_scans` (minimum
necessary principle). -/
def safeItem (d : JVal) : Dict JVal :=
  [("scan_id", (jget d "scan_id").getD .jnull),
   ("created_at", (jget d "created_at").getD .jnull),
   ("scan_type", (jget d "scan_type").getD .jnull),
   ("status", (jget d "status").getD .jnull),
   ("violation_count", (jget d "violation_count").getD (.jnum 0))]

/-- `list_customer_scans(limit)`: decrypts every item, skipping the ones
whose decryption fails. -/
def listCustomerScans (svc : CustomerDataService) (limit : Nat)
    (st : SvcState) : Except SvcErr (List (Dict JVal)) × SvcState :=
  if !(hasPermission svc .readCustomerData) then
    (.error (.permissionError "Insufficient permissions to list scan data"),
     auditAccess svc "list_customer_scans" "scan_data" none .denied none st)
  else
    let items := st.scans.take limit
    let r := items.foldl
      (fun acc p =>
        let dec := decryptCustomerData svc.customer_id p.2
          [("customer_id", svc.customer_id), ("purpose", "data_listing"),
           ("user_id", svc.user_id)] acc.2.world
        let st1 := { acc.2 with
          world := dec.2, engineCalls := acc.2.engineCalls + 1 }
        match dec.1 with
        | .ok d => (acc.1 ++ [safeItem d], st1)
        | .error _ => (acc.1, st1))
      (([] : List (Dict JVal)), st)
    (.ok r.1,
     auditAccess svc "list_customer_scans" "scan_data" none
       .success none r.2)

/-- `delete_scan_data(scan_id)`: permission gate, then an internal
`get_scan_data` (whose own audit events are also emitted), a customer
boundary check, and the table/object deletions. -/
def deleteScanData (svc : CustomerDataService) (scan_id : String)
    (st : SvcState) : Except SvcErr Bool × SvcState :=
  if !(hasPermission svc .deleteCustomerData) then
    (.error (.permissionError "Insufficient permissions to delete scan data"),
     auditAccess svc "delete_scan_data" "scan_data" (some scan_id)
       .denied none st)
  else
    let g := getScanData svc scan_id st
    match g.1 with
    | .error e =>
      (.error e,
       auditAccess svc "delete_scan_data" "scan_data" (some scan_id)
         .error (some "inner failure") g.2)
    | .ok none =>
      (.ok false,
       auditAccess svc "delete_scan_data" "scan_data" (some scan_id)
         .notFound none g.2)
    | .ok (some existing) =>
      if !(match jget existing "customer_id" with
           | some (.jstr s) => s == svc.customer_id
           | _ => false) then
        (.error (.permissionError
           "Cannot delete scan data belonging to different customer"),
         auditAccess svc "delete_scan_data" "scan_data" (some scan_id)
           .denied none g.2)
      else
        let keyHead :=
          "customers/" ++ svc.customer_id ++ "/scans/" ++ scan_id ++ "/"
        let st1 := { g.2 with
          scans := ddel g.2.scans scan_id
          s3Objects :=
            g.2.s3Objects.filter (fun k => !(strStartsWith k keyHead)) }
        (.ok true,
         auditAccess svc "delete_scan_data" "scan_data" (some scan_id)
           .success none st1)

/-- `export_customer_data(export_format)`: gathers all scans through
`list_customer_scans`, encrypts the bundle, stores it under the tenant
prefix, and returns a presigned URL. -/
def exportCustomerData (svc : CustomerDataService) (export_format : String)
    (st : SvcState) : Except SvcErr String × SvcState :=
  if !(hasPermission svc .exportCustomerData) then
    (.error (.permissionError
       "Insufficient permissions to export customer data"),
     auditAccess svc "export_customer_data" "customer_data" none
       .denied none st)
  else
    let export_id := "uuid-" ++ toString st.uuidCounter
    let st1 := { st with uuidCounter := st.uuidCounter + 1 }
    let ls := listCustomerScans svc 1000 st1
    match ls.1 with
    | .error e =>
      (.error e,
       auditAccess svc "export_customer_data" "customer_data" none
         .error (some "inner failure") ls.2)
    | .ok items =>
      let exportData : JVal := .jobj
        [("customer_id", .jstr svc.customer_id),
         ("export_id", .jstr export_id),
         ("exported_at", .jstr (toString ls.2.now)),
         ("exported_by", .jstr svc.user_id),
         ("format", .jstr export_format),
         ("data", .jobj [("scans", .jarr (items.map .jobj))])]
      let enc := encryptCustomerData svc.customer_id exportData
        [("customer_id", svc.customer_id), ("purpose", "data_export"),
         ("user_id", svc.user_id)] ls.2.now ls.2.world
      let kw := getCustomerKeyId svc.customer_id enc.2
      let exportKey := "customers/" ++ svc.customer_id ++ "/exports/" ++
        export_id ++ "." ++ export_format ++ ".encrypted"
      let st2 := { ls.2 with
        world := kw.2
        engineCalls := ls.2.engineCalls + 1
        s3Objects := ls.2.s3Objects ++ [exportKey] }
      (.ok ("https://s3.example/" ++ exportKey ++ "?expires=3600"),
       auditAccess svc "export_customer_data" "customer_data"
         (some export_id) .success none st2)

/-- `purge_customer_data()`: drops the three tenant tables, deletes every
object under the tenant prefix, and calls `delete_customer_key` — whose
boolean result it ignores, like the source.  Returns
`(scans_deleted, s3_objects_deleted, tables_deleted)`; the source never
increments `scans_deleted`. -/
def purgeCustomerData (svc : CustomerDataService) (st : SvcState) :
    Except SvcErr (Nat × Nat × Nat) × SvcState :=
  if !(hasPermission svc .deleteCustomerData) then
    (.error (.permissionError
       "Insufficient permissions to purge customer data"),
     auditAccess svc "purge_customer_data" "customer_data" none
       .denied none st)
  else
    let keyHead := "customers/" ++ svc.customer_id ++ "/"
    let removed := st.s3Objects.filter (fun k => strStartsWith k keyHead)
    let kept := st.s3Objects.filter (fun k => !(strStartsWith k keyHead))
    let dk := deleteCustomerKey svc.customer_id st.keyService
    let st1 := { st with
      scans := []
      s3Objects := kept
      keyService := dk.2 }
    (.ok (0, removed.length, 3),
     auditAccess svc "purge_customer_data" "customer_data" none
       .success none st1)

/-- The data operations of the service and the one permission each
requires before any downstream call. -/
inductive DataOp where
  | store (scan_data : Dict JVal)
  | get (scan_id : String)
  | listScans (limit : Nat)
  | delete (scan_id : String)
  | exportAll (export_format : String)
  | purge

def requiredPermission : DataOp → Permission
  | .store _ => .writeCustomerData
  | .get _ => .readCustomerData
  | .listScans _ => .readCustomerData
  | .delete _ => .deleteCustomerData
  | .exportAll _ => .exportCustomerData
  | .purge => .deleteCustomerData

inductive OpOut where
  | scanId (s : String)
  | scanData (d : Option JVal)
  | listing (l : List (Dict JVal))
  | deleted (b : Bool)
  | url (s : String)
  | counts (c : Nat × Nat × Nat)

def runOp (svc : CustomerDataService) (op : DataOp) (st : SvcState) :
    Except SvcErr OpOut × SvcState :=
  match op with
  | .store d => let r := storeScanData svc d st; (r.1.map .scanId, r.2)
  | .get sid => let r := getScanData svc sid st; (r.1.map .scanData, r.2)
  | .listScans n => let r := listCustomerScans svc n st; (r.1.map .listing, r.2)
  | .delete sid => let r := deleteScanData svc sid st; (r.1.map .deleted, r.2)
  | .exportAll f => let r := exportCustomerData svc f st; (r.1.map .url, r.2)
  | .purge => let r := purgeCustomerData svc st; (r.1.map .counts, r.2)

/-! ## `DataRetentionService` (`data_retention_service.py`)

Timestamps are ISO-formatted dates in the source; the scan filter compares
them lexicographically, which on zero-padded ISO text coincides with
chronological order, so the model compares dates through their day
number. -/

/-- A calendar date (proleptic Gregorian). -/
structure Date where
  year : Nat
  month : Nat
  day : Nat
  deriving DecidableEq

/-- Day count since the civil epoch (the standard days-from-civil
algorithm, restricted to CE dates). -/
def Date.toRD (d : Date) : Nat :=
  let y := if d.month ≤ 2 then d.year - 1 else d.year
  let era := y / 400
  let yoe := y % 400
  let mp := (d.month + 9) % 12
  let doy := (153 * mp + 2) / 5 + d.day - 1
  let doe := yoe * 365 + yoe / 4 - yoe / 100 + doy
  era * 146097 + doe

/-- Inverse of `Date.toRD` (civil-from-days). -/
def Date.fromRD (z : Nat) : Date :=
  let era := z / 146097
  let doe := z % 146097
  let yoe := (doe - doe / 1460 + doe / 36524 - doe / 146096) / 365
  let y := yoe + era * 400
  let doy := doe - (365 * yoe + yoe / 4 - yoe / 100)
  let mp := (5 * doy + 2) / 153
  let day := doy - (153 * mp + 2) / 5 + 1
  let month := if mp < 10 then mp + 3 else mp - 9
  if month ≤ 2 then ⟨y + 1, month, day⟩ else ⟨y, month, day⟩

/-- `created_at + timedelta(days=n)`. -/
def Date.addDays (d : Date) (n : Nat) : Date := Date.fromRD (d.toRD + n)

/-- Chronological comparison (the lexicographic ISO-string comparison of
the DynamoDB filter expression). -/
def Date.le (a b : Date) : Bool := decide (a.toRD ≤ b.toRD)

inductive RetentionPolicy where
  | hipaaMinimum
  | extended
  | indefinite
  | shortTerm
  deriving DecidableEq

def RetentionPolicy.val : RetentionPolicy → String
  | .hipaaMinimum => "hipaa_minimum"
  | .extended => "extended"
  | .indefinite => "indefinite"
  | .shortTerm => "short_term"

inductive DataCategory where
  | phi
  | auditLogs
  | systemLogs
  | billingData
  | userData
  | analytics
  deriving DecidableEq

def DataCategory.val : DataCategory → String
  | .phi => "phi"
  | .auditLogs => "audit_logs"
  | .systemLogs => "system_logs"
  | .billingData => "billing_data"
  | .userData => "user_data"
  | .analytics => "analytics"

inductive DeletionMethod where
  | softDelete
  | hardDelete
  | cryptoErasure
  deriving DecidableEq

def DeletionMethod.val : DeletionMethod → String
  | .softDelete => "soft_delete"
  | .hardDelete => "hard_delete"
  | .cryptoErasure => "crypto_erasure"

/-- `DeletionMethod(s)`: the enum constructor, `None` on an unknown
value (the source raises `ValueError`, caught by the callers). -/
def deletionMethodOfString (s : String) : Option DeletionMethod :=
  if s = "soft_delete" then some .softDelete
  else if s = "hard_delete" then some .hardDelete
  else if s = "crypto_erasure" then some .cryptoErasure
  else none

structure PolicyRec where
  policy : RetentionPolicy
  retention_days : Option Nat
  deletion_method : DeletionMethod
  requires_approval : Bool
  audit_level : String
  deriving DecidableEq

/-- `RETENTION_POLICIES`. -/
def retentionPolicies : DataCategory → PolicyRec
  | .phi => ⟨.hipaaMinimum, some 2190, .cryptoErasure, true, "comprehensive"⟩
  | .auditLogs => ⟨.extended, some 3650, .hardDelete, true, "comprehensive"⟩
  | .systemLogs => ⟨.shortTerm, some 365, .hardDelete, false, "standard"⟩
  | .billingData => ⟨.extended, some 3650, .softDelete, true, "comprehensive"⟩
  | .userData => ⟨.indefinite, none, .hardDelete, false, "standard"⟩
  | .analytics => ⟨.shortTerm, some 730, .hardDelete, false, "minimal"⟩

/-- A row of the `data-retention-tracker` table. -/
structure RetentionEntry where
  retention_id : String
  customer_id : String
  data_category : String
  resource_type : String
  resource_id : String
  created_at : Date
  expiry_date : Option Date
  retention_policy : String
  deletion_method : String
  requires_approval : Bool
  audit_level : String
  status : String
  deleted_at : Option Date
  deletion_reason : Option String
  deriving DecidableEq

/-- A row of the `deletion-queue` table — approval items carry
`data_category`, `expiry_date` and `requires_approval`; retry items carry
`retry_count` (the queue-id timestamp suffix is immaterial and elided). -/
structure QueueItem where
  queue_id : String
  retention_id : String
  customer_id : String
  resource_type : String
  resource_id : String
  data_category : Option String
  expiry_date : Option Date
  status : String
  requires_approval : Option Bool
  deletion_method : String
  retry_count : Option Nat
  deriving DecidableEq

/-- A stored tenant resource: the DynamoDB item of a
`customer-<id>-<type>` table, with its soft-delete flag. -/
structure RetResource where
  customer_id : String
  resource_type : String
  resource_id : String
  deleted : Bool
  deriving DecidableEq

/-- The state surrounding the retention service: the retention ledger,
the deletion queue, the stored resources (DynamoDB) and objects (S3), the
key service, and the current time of the sweep. -/
structure RetState where
  entries : List RetentionEntry
  queue : List QueueItem
  resources : List RetResource
  objects : List (String × String × String)
  keyService : KeyService
  now : Date

/-- `schedule_data_for_retention`: computes
`expiry = created_at + retention_days` (or indefinite) from the policy
table and writes the RetentionEntry (DynamoDB `put_item` replaces any row
with the same key). -/
def scheduleDataForRetention (customer_id : String)
    (data_category : DataCategory) (resource_type resource_id : String)
    (created_at : Date) (s : RetState) : String × RetState :=
  let policy := retentionPolicies data_category
  let expiry_date := match policy.retention_days with
    | some n => some (created_at.addDays n)
    | none => none
  let retention_id := customer_id ++ "#" ++ resource_type ++ "#" ++ resource_id
  let entry : RetentionEntry :=
    { retention_id := retention_id
      customer_id := customer_id
      data_category := data_category.val
      resource_type := resource_type
      resource_id := resource_id
      created_at := created_at
      expiry_date := expiry_date
      retention_policy := policy.policy.val
      deletion_method := policy.deletion_method.val
      requires_approval := policy.requires_approval
      audit_level := policy.audit_level
      status := "active"
      deleted_at := none
      deletion_reason := none }
  (retention_id,
   { s with entries :=
      (s.entries.filter (fun e => e.retention_id != retention_id)) ++ [entry] })

/-- `_queue_for_approval`. -/
def queueForApproval (item : RetentionEntry) (s : RetState) : RetState :=
  { s with queue := s.queue ++
      [{ queue_id := "approval-" ++ item.retention_id
         retention_id := item.retention_id
         customer_id := item.customer_id
         resource_type := item.resource_type
         resource_id := item.resource_id
         data_category := some item.data_category
         expiry_date := item.expiry_date
         status := "pending_approval"
         requires_approval := some true
         deletion_method := item.deletion_method
         retry_count := none }] }

/-- `_queue_for_retry`. -/
def queueForRetry (item : RetentionEntry) (s : RetState) : RetState :=
  { s with queue := s.queue ++
      [{ queue_id := "retry-" ++ item.retention_id
         retention_id := item.retention_id
         customer_id := item.customer_id
         resource_type := item.resource_type
         resource_id := item.resource_id
         data_category := none
         expiry_date := none
         status := "retry_needed"
         requires_approval := none
         deletion_method := item.deletion_method
         retry_count := some 1 }] }

/-- `_hard_delete_resource`: deletes the DynamoDB item (for the known
tenant-scoped table types) and every S3 object under the resource
prefix. -/
def hardDeleteResource (customer_id resource_type resource_id : String)
    (s : RetState) : RetState :=
  let s1 :=
    if resource_type ∈ ["scan_data", "reports", "usage"] then
      { s with resources := s.resources.filter (fun r =>
          !(r.customer_id == customer_id && r.resource_type == resource_type
            && r.resource_id == resource_id)) }
    else s
  { s1 with objects := s1.objects.filter (fun ob =>
      !(ob.1 == customer_id && ob.2.1 == resource_type
        && ob.2.2 == resource_id)) }

/-- `_soft_delete_resource`: marks the item deleted in place. -/
def softDeleteResource (customer_id resource_type resource_id : String)
    (s : RetState) : RetState :=
  if resource_type ∈ ["scan_data", "reports", "usage"] then
    { s with resources := s.resources.map (fun r =>
        if r.customer_id == customer_id && r.resource_type == resource_type
            && r.resource_id == resource_id then
          { r with deleted := true }
        else r) }
  else s

/-- `_execute_deletion`: applies the destruction method, then marks the
RetentionEntry `deleted` and returns `True`.  In the crypto-erasure branch
the boolean result of `delete_customer_key` is discarded, exactly as in
the source (`await encryption_service.delete_customer_key()` on its own
line): a `False` (key service unreachable) does not stop the update. -/
def executeDeletion (item : RetentionEntry)
    (deletion_method : DeletionMethod) (reason : String) (s : RetState) :
    Bool × RetState :=
  let s1 := match deletion_method with
    | .cryptoErasure =>
      let dk := deleteCustomerKey item.customer_id s.keyService
      { s with keyService := dk.2 }
    | .hardDelete =>
      hardDeleteResource item.customer_id item.resource_type
        item.resource_id s
    | .softDelete =>
      softDeleteResource item.customer_id item.resource_type
        item.resource_id s
  (true,
   { s1 with entries := s1.entries.map (fun e =>
      if e.retention_id == item.retention_id then
        { e with
            status := "deleted"
            deleted_at := some s.now
            deletion_method := deletion_method.val
            deletion_reason := some reason }
      else e) })

/-- `_process_automatic_deletion`. -/
def processAutomaticDeletion (item : RetentionEntry) (s : RetState) :
    Bool × RetState :=
  match deletionMethodOfString item.deletion_method with
  | some m => executeDeletion item m "automatic_retention_policy" s
  | none => (false, s)

structure SweepSummary where
  items_reviewed : Nat
  items_queued_for_deletion : Nat
  items_deleted : Nat
  items_requiring_approval : Nat
  errors : Nat
  deriving DecidableEq

/-- One iteration of the sweep loop of `process_expired_data`. -/
def sweepItem (acc : SweepSummary × RetState) (item : RetentionEntry) :
    SweepSummary × RetState :=
  if item.requires_approval then
    ({ acc.1 with
        items_requiring_approval := acc.1.items_requiring_approval + 1 },
     queueForApproval item acc.2)
  else
    let r := processAutomaticDeletion item acc.2
    if r.1 then
      ({ acc.1 with items_deleted := acc.1.items_deleted + 1 }, r.2)
    else
      ({ acc.1 with
          items_queued_for_deletion := acc.1.items_queued_for_deletion + 1 },
       queueForRetry item r.2)

/-- `process_expired_data`: scans for
`expiry_date <= now AND status == active` and routes each expired item —
to the approval queue when its policy requires approval, else to the
automatic deletion path (with a retry queue on failure). -/
def processExpiredData (s : RetState) : SweepSummary × RetState :=
  let expired := s.entries.filter (fun e =>
    (match e.expiry_date with
     | some d => Date.le d s.now
     | none => false) && e.status == "active")
  expired.foldl sweepItem (⟨expired.length, 0, 0, 0, 0⟩, s)

/-- A concrete expired `billing_data` entry (policy: soft-delete, approval
required), used to instantiate the sweep theorem. -/
def c5Entry : RetentionEntry :=
  ⟨"t1#billing#b1", "t1", "billing_data", "billing", "b1", ⟨2014, 1, 1⟩,
   some ⟨2024, 1, 1⟩, "extended", "soft_delete", true, "comprehensive",
   "active", none, none⟩

/-- A retention state holding `c5Entry`, its stored resource and one
object, at sweep time 2024-06-01. -/
def c5State : RetState :=
  ⟨[c5Entry], [], [⟨"t1", "billing", "b1", false⟩], [("t1", "billing", "b1")],
   ⟨true, [], []⟩, ⟨2024, 6, 1⟩⟩

theorem length_natToBits (w n : Nat) : (natToBits w n).length = w := by
  induction w generalizing n with
  | zero => rfl
  | succ w ih => simp [natToBits, ih]

theorem bitsToNat_natToBits (w n : Nat) (h : n < 2 ^ w) :
    bitsToNat (natToBits w n) = n := by
  induction w generalizing n with
  | zero => simp [natToBits, bitsToNat]; omega
  | succ w ih =>
    have hdiv : n / 2 < 2 ^ w := by
      rw [Nat.div_lt_iff_lt_mul (by norm_num)]
      calc n < 2 ^ (w + 1) := h
        _ = 2 ^ w * 2 := by ring
    simp only [natToBits, bitsToNat, ih (n / 2) hdiv]
    rcases Nat.mod_two_eq_zero_or_one n with h2 | h2 <;> simp [h2] <;> omega

theorem lt_two_pow_succ (n : Nat) : n < 2 ^ (n + 1) :=
  lt_trans (Nat.lt_two_pow n) (Nat.pow_lt_pow_right (by norm_num) (by omega))

theorem length_flipBit (i : Nat) (bs : List Bool) :
    (flipBit i bs).length = bs.length := by
  simp [flipBit]

theorem fernetDecrypt_encrypt (log : FernetLog) (key : Nat) (payload : JVal) :
    fernetDecrypt (fernetEncrypt log key payload).2 key
      (fernetEncrypt log key payload).1 = some payload := by
  unfold fernetEncrypt fernetDecrypt fernetTokenBits
  have hlen : (natToBits (log.length + 1) log.length).length = log.length + 1 :=
    length_natToBits _ _
  have hlen2 : (natToBits (log.length + 1) log.length ++
      natToBits (log.length + 1) log.length).length = 2 * (log.length + 1) := by
    simp [hlen]; ring
  have hmod : 2 * (log.length + 1) % 2 = 0 := by omega
  have hhalf : 2 * (log.length + 1) / 2 = log.length + 1 := by omega
  simp only [hlen2, hmod, hhalf]
  rw [List.take_left' hlen, List.drop_left' hlen]
  simp only [if_pos rfl, ne_eq]
  rw [bitsToNat_natToBits _ _ (lt_two_pow_succ _)]
  rw [List.getElem?_concat_length]
  simp

theorem set_append_lt {α : Type} (l₁ l₂ : List α) (i : Nat) (v : α)
    (h : i < l₁.length) : (l₁ ++ l₂).set i v = l₁.set i v ++ l₂ := by
  induction l₁ generalizing i with
  | nil => simp at h
  | cons a l ih =>
    cases i with
    | zero => rfl
    | succ j =>
      show a :: (l ++ l₂).set j v = a :: l.set j v ++ l₂
      rw [ih j (by simpa using h)]
      rfl

theorem set_append_ge {α : Type} (l₁ l₂ : List α) (i : Nat) (v : α)
    (h : l₁.length ≤ i) : (l₁ ++ l₂).set i v = l₁ ++ l₂.set (i - l₁.length) v := by
  induction l₁ generalizing i with
  | nil => simp
  | cons a l ih =>
    cases i with
    | zero => simp at h
    | succ j =>
      show a :: (l ++ l₂).set j v = a :: (l ++ l₂.set (j + 1 - (l.length + 1)) v)
      rw [ih j (by simpa using h), Nat.succ_sub_succ]

theorem getD_set_self (l : List Bool) (i : Nat) (v : Bool) (d : Bool)
    (h : i < l.length) : (l.set i v).getD i d = v := by
  induction l generalizing i with
  | nil => simp at h
  | cons a t ih =>
    cases i with
    | zero => rfl
    | succ j => simpa using ih j (by simpa using h)

theorem set_flip_ne (l : List Bool) (i : Nat) (h : i < l.length) :
    l.set i (!(l.getD i false)) ≠ l := by
  intro heq
  have h1 : (l.set i (!(l.getD i false))).getD i false
      = !(l.getD i false) := getD_set_self l i _ false h
  rw [heq] at h1
  simp at h1

theorem getD_append_lt {α : Type} (l₁ l₂ : List α) (i : Nat)
    (d : α) (h : i < l₁.length) : (l₁ ++ l₂).getD i d = l₁.getD i d := by
  induction l₁ generalizing i with
  | nil => simp at h
  | cons a l ih =>
    cases i with
    | zero => rfl
    | succ j => simpa using ih j (by simpa using h)

theorem getD_append_ge {α : Type} (l₁ l₂ : List α) (i : Nat)
    (d : α) (h : l₁.length ≤ i) :
    (l₁ ++ l₂).getD i d = l₂.getD (i - l₁.length) d := by
  induction l₁ generalizing i with
  | nil => simp
  | cons a l ih =>
    cases i with
    | zero => simp at h
    | succ j =>
      show (l ++ l₂).getD j d = l₂.getD (j + 1 - (l.length + 1)) d
      rw [ih j (by simpa using h), Nat.succ_sub_succ]

/-- Tamper detection of the modelled AEAD: flipping any single bit of a
Fernet token makes decryption fail, whatever the log and key. -/
theorem fernetDecrypt_flipBit (log : FernetLog) (key idx i : Nat)
    (hi : i < (fernetTokenBits idx).length) :
    fernetDecrypt log key (flipBit i (fernetTokenBits idx)) = none := by
  set e := natToBits (idx + 1) idx with he
  have hlen : e.length = idx + 1 := length_natToBits _ _
  have htot : (fernetTokenBits idx).length = 2 * e.length := by
    simp [fernetTokenBits, ← he]; ring
  rw [htot] at hi
  unfold fernetDecrypt flipBit fernetTokenBits
  rw [← he]
  have hlenset : ((e ++ e).set i (!((e ++ e).getD i false))).length
      = 2 * e.length := by
    simp; ring
  have hmod : 2 * e.length % 2 = 0 := by omega
  have hhalf : 2 * e.length / 2 = e.length := by omega
  simp only [hlenset, hmod, hhalf]
  rw [if_neg (by decide)]
  rcases Nat.lt_or_ge i e.length with hcase | hcase
  · rw [getD_append_lt e e i false hcase, set_append_lt e e i _ hcase,
       List.take_left' (by simp), List.drop_left' (by simp)]
    rw [if_neg (set_flip_ne e i hcase)]
  · rw [getD_append_ge e e i false hcase, set_append_ge e e i _ hcase,
       List.take_left, List.drop_left]
    rw [if_neg (fun hne =>
      set_flip_ne e (i - e.length) (by omega) hne.symm)]

theorem find?_wrap_append (t : List (Nat × WrapEntry)) (b : Nat) (e : WrapEntry)
    (h : ∀ p ∈ t, p.1 ≠ b) :
    (t ++ [(b, e)]).find? (fun p => p.1 == b) = some (b, e) := by
  induction t with
  | nil => simp
  | cons q t ih =>
    rw [List.cons_append, List.find?_cons_of_neg, ih]
    · exact fun p hp => h p (List.mem_cons_of_mem q hp)
    · simpa using h q (List.mem_cons_self q t)

/-- `decrypt_customer_data` only ever adds KMS calls to the world: the
wrap table and the Fernet log are read, never written. -/
theorem decryptCustomerData_world (customer_id : String)
    (record : Dict RVal) (context : Dict String) (w : KmsWorld) :
    (decryptCustomerData customer_id record context w).2.wrapTable
        = w.wrapTable ∧
    (decryptCustomerData customer_id record context w).2.fernetLog
        = w.fernetLog := by
  unfold decryptCustomerData
  dsimp only
  repeat' split
  all_goals exact ⟨rfl, rfl⟩

/-- `decrypt_field` likewise leaves wrap table and Fernet log unchanged. -/
theorem decryptField_world (customer_id : String)
    (encrypted_field : Dict RVal) (w : KmsWorld) :
    (decryptField customer_id encrypted_field w).2.wrapTable
        = w.wrapTable ∧
    (decryptField customer_id encrypted_field w).2.fernetLog
        = w.fernetLog := by
  unfold decryptField
  dsimp only
  repeat' split
  all_goals
    first
      | exact ⟨rfl, rfl⟩
      | exact ⟨(decryptCustomerData_world _ _ _ _).1,
               (decryptCustomerData_world _ _ _ _).2⟩

/-- Round trip through the field layer: `decrypt_field` recovers the value
stored by `encrypt_field` of the same tenant. -/
theorem decryptField_encryptField (customer_id field_value field_name : String)
    (now : Nat) (w : KmsWorld) (hw : w.Wf) :
    (decryptField customer_id
        (encryptField customer_id field_value field_name now w).1
        (encryptField customer_id field_value field_name now w).2).1
      = Except.ok field_value := by
  have hfind : ∀ e : WrapEntry,
      (w.wrapTable ++ [(w.fresh, e)]).find? (fun p => p.1 == w.fresh)
        = some (w.fresh, e) :=
    fun e => find?_wrap_append w.wrapTable w.fresh e
      (fun p hp => Nat.ne_of_lt (hw p hp))
  simp [encryptField, decryptField, encryptCustomerData,
    decryptCustomerData, getCustomerKeyId, generateDataKey, kmsDecrypt,
    dget, dcontains, hfind, fernetDecrypt_encrypt, rvalIsStr, jget]

/-- C9: selective field tolerance — on a record holding a healthy
encrypted field (produced by `encrypt_field`) and a second encrypted field
that fails to decrypt (e.g. a corrupted wrapped DEK),
`decrypt_sensitive_fields` decrypts the healthy field (replacing its
`*_encrypted` and `*_hash` entries by the plaintext) and keeps the failing
field in its encrypted form, rather than failing for the whole record. -/
theorem C9_selective_field_tolerance
    (customer_id v1 hs1 hs2 sid : String) (now : Nat) (w : KmsWorld)
    (ef2 : Dict RVal) (err : DecErr) (hw : w.Wf)
    (hbad : ∀ w2 : KmsWorld,
      w2.wrapTable = (encryptField customer_id v1 "email" now w).2.wrapTable →
      w2.fernetLog = (encryptField customer_id v1 "email" now w).2.fernetLog →
      (decryptField customer_id ef2 w2).1 = Except.error err) :
    let e1 := encryptField customer_id v1 "email" now w
    let res := (decryptSensitiveFields customer_id
      [("email_encrypted", .rdict e1.1),
       ("email_hash", .str hs1),
       ("phone_encrypted", .rdict ef2),
       ("phone_hash", .str hs2),
       ("scan_id", .str sid)] e1.2).1
    dget res "email" = some (.str v1) ∧
    dget res "email_encrypted" = none ∧
    dget res "email_hash" = none ∧
    dget res "phone_encrypted" = some (.rdict ef2) ∧
    dget res "phone_hash" = some (.str hs2) ∧
    dget res "phone" = none := by
  have hr1 := decryptField_encryptField customer_id v1 "email" now w hw
  rcases hpair : decryptField customer_id
      (encryptField customer_id v1 "email" now w).1
      (encryptField customer_id v1 "email" now w).2 with ⟨res1, w3⟩
  rw [hpair] at hr1
  obtain rfl : res1 = Except.ok v1 := hr1
  have hworld := decryptField_world customer_id
      (encryptField customer_id v1 "email" now w).1
      (encryptField customer_id v1 "email" now w).2
  rw [hpair] at hworld
  have hbad2 := hbad w3 hworld.1 hworld.2
  rcases hpair2 : decryptField customer_id ef2 w3 with ⟨res2, w4⟩
  rw [hpair2] at hbad2
  obtain rfl : res2 = Except.error err := hbad2
  have hnames : (((["email_encrypted", "email_hash", "phone_encrypted",
      "phone_hash", "scan_id"] : List String).filter
        (fun k => strEndsWith k "_encrypted")).map
        (fun k => pyReplace k "_encrypted" "")) = ["email", "phone"] := by
    decide
  simp [decryptSensitiveFields, dkeys, hnames, hpair, hpair2,
    dcontains, dget, dset, ddel]

theorem C9_selective_field_tolerance_witness :
    KmsWorld.Wf ⟨0, [], [], 0⟩ ∧
    (∀ w2 : KmsWorld,
      w2.wrapTable =
        (encryptField "t" "alice" "email" 0 ⟨0, [], [], 0⟩).2.wrapTable →
      w2.fernetLog =
        (encryptField "t" "alice" "email" 0 ⟨0, [], [], 0⟩).2.fernetLog →
      (decryptField "t"
          (dset (encryptField "t" "alice" "email" 0 ⟨0, [], [], 0⟩).1
            "encrypted_dek" (.num 999)) w2).1
        = Except.error DecErr.keyUnavailable) ∧
    (let e1 := encryptField "t" "alice" "email" 0 ⟨0, [], [], 0⟩
     let res := (decryptSensitiveFields "t"
       [("email_encrypted", .rdict e1.1),
        ("email_hash", .str "x"),
        ("phone_encrypted", .rdict
          (dset e1.1 "encrypted_dek" (.num 999))),
        ("phone_hash", .str "y"),
        ("scan_id", .str "s")] e1.2).1
     dget res "email" = some (.str "alice") ∧
     dget res "email_encrypted" = none ∧
     dget res "email_hash" = none ∧
     dget res "phone_encrypted" = some (.rdict
       (dset e1.1 "encrypted_dek" (.num 999))) ∧
     dget res "phone_hash" = some (.str "y") ∧
     dget res "phone" = none) := by
  have hkey : KmsWorld.Wf ⟨0, [], [], 0⟩ := by simp [KmsWorld.Wf]
  have hbad : ∀ w2 : KmsWorld,
      w2.wrapTable =
        (encryptField "t" "alice" "email" 0 ⟨0, [], [], 0⟩).2.wrapTable →
      w2.fernetLog =
        (encryptField "t" "alice" "email" 0 ⟨0, [], [], 0⟩).2.fernetLog →
      (decryptField "t"
          (dset (encryptField "t" "alice" "email" 0 ⟨0, [], [], 0⟩).1
            "encrypted_dek" (.num 999)) w2).1
        = Except.error DecErr.keyUnavailable := by
    intro w2 hwt hfl
    simp [encryptField, encryptCustomerData, getCustomerKeyId,
      generateDataKey, decryptField, decryptCustomerData, kmsDecrypt,
      dget, dcontains, dset, rvalIsStr, hwt, hfl]
  exact ⟨hkey, hbad,
    C9_selective_field_tolerance "t" "alice" "x" "y" "s" 0 ⟨0, [], [], 0⟩
      (dset (encryptField "t" "alice" "email" 0 ⟨0, [], [], 0⟩).1
        "encrypted_dek" (.num 999)) DecErr.keyUnavailable hkey hbad⟩

/-- C1: for distinct tenants `t1 ≠ t2`, decrypting a record encrypted for
`t1` with the service of `t2` always fails with the tenant-mismatch error
(the `PermissionError` of the customer-boundary check, the spec taxonomy
name `TenantMismatch`), returns no data, and leaves the key-service state
untouched — the failure happens before any key-service call. -/
theorem C1_tenant_isolation (t1 t2 : String) (data : JVal)
    (context context2 : Dict String) (now : Nat) (w w2 : KmsWorld)
    (hne : t1 ≠ t2) :
    decryptCustomerData t2 (encryptCustomerData t1 data context now w).1
        context2 w2
      = (Except.error DecErr.tenantMismatch, w2) := by
  have hbeq : (t1 == t2) = false := beq_eq_false_iff_ne.mpr hne
  simp [encryptCustomerData, decryptCustomerData, dget, dcontains,
    rvalIsStr, hbeq]

theorem C1_tenant_isolation_witness :
    ("alpha" : String) ≠ "beta" ∧
    decryptCustomerData "beta"
        (encryptCustomerData "alpha" (.jstr "phi") [] 7 ⟨0, [], [], 0⟩).1
        [] ⟨0, [], [], 0⟩
      = (Except.error DecErr.tenantMismatch, ⟨0, [], [], 0⟩) :=
  ⟨by decide,
   C1_tenant_isolation "alpha" "beta" (.jstr "phi") [] [] 7
     ⟨0, [], [], 0⟩ ⟨0, [], [], 0⟩ (by decide)⟩

/-- C2: the round trip — for every tenant, JSON-serializable record,
caller context and well-formed key-service world,
`decrypt(T, encrypt(T, R)) == R`. -/
theorem C2_round_trip (customer_id : String) (data : JVal)
    (context context2 : Dict String) (now : Nat) (w : KmsWorld)
    (hw : w.Wf) :
    (decryptCustomerData customer_id
        (encryptCustomerData customer_id data context now w).1 context2
        (encryptCustomerData customer_id data context now w).2).1
      = Except.ok data := by
  have hfind : ∀ e : WrapEntry,
      (w.wrapTable ++ [(w.fresh, e)]).find? (fun p => p.1 == w.fresh)
        = some (w.fresh, e) :=
    fun e => find?_wrap_append w.wrapTable w.fresh e
      (fun p hp => Nat.ne_of_lt (hw p hp))
  simp [encryptCustomerData, decryptCustomerData, getCustomerKeyId,
    generateDataKey, kmsDecrypt, dget, dcontains, hfind,
    fernetDecrypt_encrypt, rvalIsStr]

theorem C2_round_trip_witness :
    KmsWorld.Wf ⟨0, [], [], 0⟩ ∧
    (decryptCustomerData "tenant1"
        (encryptCustomerData "tenant1" (.jstr "record") [] 3 ⟨0, [], [], 0⟩).1
        [] (encryptCustomerData "tenant1" (.jstr "record") [] 3 ⟨0, [], [], 0⟩).2).1
      = Except.ok (.jstr "record") :=
  ⟨by simp [KmsWorld.Wf],
   C2_round_trip "tenant1" (.jstr "record") [] [] 3 ⟨0, [], [], 0⟩
     (by simp [KmsWorld.Wf])⟩

/-- C3: tamper detection — flipping any single bit of the stored
ciphertext (`encrypted_data`) of a record produced by
`encrypt_customer_data` makes `decrypt_customer_data` fail with the
integrity-violation error; corrupted plaintext is never returned. -/
theorem C3_tamper_detection (customer_id : String) (data : JVal)
    (context context2 : Dict String) (now : Nat) (w : KmsWorld)
    (ct : List Bool) (i : Nat) (hw : w.Wf)
    (hct : dget (encryptCustomerData customer_id data context now w).1
        "encrypted_data" = some (.bits ct))
    (hi : i < ct.length) :
    (decryptCustomerData customer_id
        (dset (encryptCustomerData customer_id data context now w).1
          "encrypted_data" (.bits (flipBit i ct)))
        context2
        (encryptCustomerData customer_id data context now w).2).1
      = Except.error DecErr.integrityViolation := by
  have hct2 : ct = (fernetEncrypt w.fernetLog w.fresh data).1 := by
    simp [encryptCustomerData, getCustomerKeyId, generateDataKey, dget,
      fernetEncrypt] at hct
    exact hct.symm
  subst hct2
  have hfind : ∀ e : WrapEntry,
      (w.wrapTable ++ [(w.fresh, e)]).find? (fun p => p.1 == w.fresh)
        = some (w.fresh, e) :=
    fun e => find?_wrap_append w.wrapTable w.fresh e
      (fun p hp => Nat.ne_of_lt (hw p hp))
  have hflip : fernetDecrypt
      (fernetEncrypt w.fernetLog w.fresh data).2 w.fresh
      (flipBit i (fernetEncrypt w.fernetLog w.fresh data).1) = none := by
    simpa [fernetEncrypt] using
      fernetDecrypt_flipBit (w.fernetLog ++ [(w.fresh, data)]) w.fresh
        w.fernetLog.length i (by simpa [fernetEncrypt] using hi)
  simp [encryptCustomerData, decryptCustomerData, getCustomerKeyId,
    generateDataKey, kmsDecrypt, dget, dcontains, dset, hfind,
    rvalIsStr, hflip]

theorem C3_tamper_detection_witness :
    KmsWorld.Wf ⟨0, [], [], 0⟩ ∧
    dget (encryptCustomerData "t" (.jstr "r") [] 1 ⟨0, [], [], 0⟩).1
        "encrypted_data" = some (.bits [false, false]) ∧
    0 < 2 ∧
    (decryptCustomerData "t"
        (dset (encryptCustomerData "t" (.jstr "r") [] 1 ⟨0, [], [], 0⟩).1
          "encrypted_data" (.bits (flipBit 0 [false, false])))
        [] (encryptCustomerData "t" (.jstr "r") [] 1 ⟨0, [], [], 0⟩).2).1
      = Except.error DecErr.integrityViolation :=
  ⟨by simp [KmsWorld.Wf], rfl, by decide,
   C3_tamper_detection "t" (.jstr "r") [] [] 1 ⟨0, [], [], 0⟩
     [false, false] 0 (by simp [KmsWorld.Wf]) rfl (by decide)⟩

/-- C10: a record missing any of the four required fields makes
`decrypt_customer_data` fail with a `ValueError` naming a missing required
field (the first of the four that is absent), with the key-service state
untouched — before the tenant check and before any key-service call. -/
theorem C10_missing_field (customer_id : String) (record : Dict RVal)
    (context : Dict String) (w : KmsWorld) (f : String)
    (hf : f ∈ ["encrypted_data", "encrypted_dek", "encryption_context",
               "customer_id"])
    (hmiss : dcontains record f = false) :
    ∃ g, g ∈ ["encrypted_data", "encrypted_dek", "encryption_context",
              "customer_id"] ∧
      dcontains record g = false ∧
      decryptCustomerData customer_id record context w
        = (Except.error (DecErr.missingField g), w) := by
  have hsome : (["encrypted_data", "encrypted_dek", "encryption_context",
      "customer_id"].find? (fun fl => !(dcontains record fl))).isSome := by
    rw [List.find?_isSome]
    exact ⟨f, hf, by simp [hmiss]⟩
  rcases Option.isSome_iff_exists.mp hsome with ⟨g, hg⟩
  refine ⟨g, List.mem_of_find?_eq_some hg, ?_, ?_⟩
  · have := List.find?_some hg
    simpa using this
  · simp [decryptCustomerData, hg]

theorem C10_missing_field_witness :
    ("encrypted_dek" : String) ∈
      ["encrypted_data", "encrypted_dek", "encryption_context",
       "customer_id"] ∧
    dcontains ([("encrypted_data", RVal.bits [])] : Dict RVal)
      "encrypted_dek" = false ∧
    ∃ g, g ∈ ["encrypted_data", "encrypted_dek", "encryption_context",
              "customer_id"] ∧
      dcontains ([("encrypted_data", RVal.bits [])] : Dict RVal) g = false ∧
      decryptCustomerData "t" [("encrypted_data", RVal.bits [])] []
          ⟨0, [], [], 0⟩
        = (Except.error (DecErr.missingField g), ⟨0, [], [], 0⟩) :=
  ⟨by decide, by decide,
   C10_missing_field "t" [("encrypted_data", RVal.bits [])] []
     ⟨0, [], [], 0⟩ "encrypted_dek" (by decide) (by decide)⟩

/-- C7: the system-admin role is denied every tenant-data permission — its
permission set is empty and `_has_permission` rejects each of the six
permissions — and constructing the customer-data service with role
`SYSTEM_ADMIN` fails with a `PermissionError` before any operation is
reachable. -/
theorem C7_system_admin_denied :
    (∀ (customer_id user_id : String) (p : Permission),
      hasPermission ⟨customer_id, user_id, Role.systemAdmin⟩ p = false) ∧
    rolePermissions Role.systemAdmin = [] ∧
    (∀ customer_id user_id : String,
      initCustomerDataService customer_id user_id Role.systemAdmin
        = Except.error
            "System admins cannot access customer data directly") :=
  ⟨fun _ _ p => by cases p <;> rfl, rfl, fun _ _ => rfl⟩

/-- C8: a data operation attempted without its required permission raises
a `PermissionError`, makes zero calls to the Envelope Engine or the Key
Registry (the engine-call counter, KMS world and key-service state are
untouched, as are the stores), and emits exactly one audit event, with
result `denied`. -/
theorem C8_denial_short_circuits (svc : CustomerDataService) (op : DataOp)
    (st : SvcState)
    (hperm : hasPermission svc (requiredPermission op) = false) :
    (∃ msg, (runOp svc op st).1 = Except.error (SvcErr.permissionError msg)) ∧
    (runOp svc op st).2.world = st.world ∧
    (runOp svc op st).2.engineCalls = st.engineCalls ∧
    (runOp svc op st).2.keyService = st.keyService ∧
    (runOp svc op st).2.scans = st.scans ∧
    (runOp svc op st).2.s3Objects = st.s3Objects ∧
    (∃ ev : AuditRec, ev.result = AccessResult.denied ∧
      (runOp svc op st).2.audits = st.audits ++ [ev]) := by
  cases op with
  | store d =>
    simp only [requiredPermission] at hperm
    refine ⟨⟨"Insufficient permissions to store scan data", ?_⟩, ?_, ?_, ?_, ?_, ?_,
      ⟨⟨svc.user_id, svc.customer_id, "store_scan_data", "scan_data", none,
        AccessResult.denied, none⟩, rfl, ?_⟩⟩ <;>
      simp [runOp, storeScanData, hperm, auditAccess, Except.map]
  | get sid =>
    simp only [requiredPermission] at hperm
    refine ⟨⟨"Insufficient permissions to read scan data", ?_⟩, ?_, ?_, ?_, ?_, ?_,
      ⟨⟨svc.user_id, svc.customer_id, "get_scan_data", "scan_data", some sid,
        AccessResult.denied, none⟩, rfl, ?_⟩⟩ <;>
      simp [runOp, getScanData, hperm, auditAccess, Except.map]
  | listScans n =>
    simp only [requiredPermission] at hperm
    refine ⟨⟨"Insufficient permissions to list scan data", ?_⟩, ?_, ?_, ?_, ?_, ?_,
      ⟨⟨svc.user_id, svc.customer_id, "list_customer_scans", "scan_data",
        none, AccessResult.denied, none⟩, rfl, ?_⟩⟩ <;>
      simp [runOp, listCustomerScans, hperm, auditAccess, Except.map]
  | delete sid =>
    simp only [requiredPermission] at hperm
    refine ⟨⟨"Insufficient permissions to delete scan data", ?_⟩, ?_, ?_, ?_, ?_, ?_,
      ⟨⟨svc.user_id, svc.customer_id, "delete_scan_data", "scan_data",
        some sid, AccessResult.denied, none⟩, rfl, ?_⟩⟩ <;>
      simp [runOp, deleteScanData, hperm, auditAccess, Except.map]
  | exportAll f =>
    simp only [requiredPermission] at hperm
    refine ⟨⟨"Insufficient permissions to export customer data", ?_⟩, ?_, ?_, ?_, ?_, ?_,
      ⟨⟨svc.user_id, svc.customer_id, "export_customer_data",
        "customer_data", none, AccessResult.denied, none⟩, rfl, ?_⟩⟩ <;>
      simp [runOp, exportCustomerData, hperm, auditAccess, Except.map]
  | purge =>
    simp only [requiredPermission] at hperm
    refine ⟨⟨"Insufficient permissions to purge customer data", ?_⟩, ?_, ?_, ?_, ?_, ?_,
      ⟨⟨svc.user_id, svc.customer_id, "purge_customer_data",
        "customer_data", none, AccessResult.denied, none⟩, rfl, ?_⟩⟩ <;>
      simp [runOp, purgeCustomerData, hperm, auditAccess, Except.map]

theorem C8_denial_short_circuits_witness :
    hasPermission ⟨"c1", "u1", Role.customerUser⟩
        (requiredPermission (.get "s1")) = false ∧
    ((∃ msg, (runOp ⟨"c1", "u1", Role.customerUser⟩ (.get "s1")
        ⟨⟨0, [], [], 0⟩, ⟨true, [], []⟩, [], [], [], 0, 0, 0⟩).1
        = Except.error (SvcErr.permissionError msg)) ∧
     (runOp ⟨"c1", "u1", Role.customerUser⟩ (.get "s1")
        ⟨⟨0, [], [], 0⟩, ⟨true, [], []⟩, [], [], [], 0, 0, 0⟩).2.world
        = (⟨0, [], [], 0⟩ : KmsWorld) ∧
     (runOp ⟨"c1", "u1", Role.customerUser⟩ (.get "s1")
        ⟨⟨0, [], [], 0⟩, ⟨true, [], []⟩, [], [], [], 0, 0, 0⟩).2.engineCalls
        = 0 ∧
     (runOp ⟨"c1", "u1", Role.customerUser⟩ (.get "s1")
        ⟨⟨0, [], [], 0⟩, ⟨true, [], []⟩, [], [], [], 0, 0, 0⟩).2.keyService
        = (⟨true, [], []⟩ : KeyService) ∧
     (runOp ⟨"c1", "u1", Role.customerUser⟩ (.get "s1")
        ⟨⟨0, [], [], 0⟩, ⟨true, [], []⟩, [], [], [], 0, 0, 0⟩).2.scans
        = [] ∧
     (runOp ⟨"c1", "u1", Role.customerUser⟩ (.get "s1")
        ⟨⟨0, [], [], 0⟩, ⟨true, [], []⟩, [], [], [], 0, 0, 0⟩).2.s3Objects
        = [] ∧
     (∃ ev : AuditRec, ev.result = AccessResult.denied ∧
      (runOp ⟨"c1", "u1", Role.customerUser⟩ (.get "s1")
        ⟨⟨0, [], [], 0⟩, ⟨true, [], []⟩, [], [], [], 0, 0, 0⟩).2.audits
        = [] ++ [ev])) :=
  ⟨by decide,
   C8_denial_short_circuits ⟨"c1", "u1", Role.customerUser⟩ (.get "s1")
     ⟨⟨0, [], [], 0⟩, ⟨true, [], []⟩, [], [], [], 0, 0, 0⟩ (by decide)⟩

/-- C6, counterexample to the claimed concrete date: scheduling
`protected-health-data` (policy: 2190 days) created 2024-01-01 writes an
entry whose expiry is 2029-12-30 — not 2029-12-17, and 13 days away from
it, more than any leap adjustment could explain. -/
theorem C6_counterexample :
    (scheduleDataForRetention "tenant1" .phi "scan_data" "r1" ⟨2024, 1, 1⟩
        ⟨[], [], [], [], ⟨true, [], []⟩, ⟨2024, 1, 1⟩⟩).2.entries.map
      (·.expiry_date) = [some ⟨2029, 12, 30⟩] ∧
    (⟨2029, 12, 30⟩ : Date) ≠ ⟨2029, 12, 17⟩ ∧
    (⟨2029, 12, 30⟩ : Date).toRD - (⟨2029, 12, 17⟩ : Date).toRD = 13 :=
  ⟨by decide, by decide, by decide⟩

/-- C6, as amended: `schedule_data_for_retention` computes
`expiry = created_at + retention_days` from the policy of the category
(indefinite when the policy has no retention days); for
`protected-health-data` (2190 days) with `created_at = 2024-01-01` the
written RetentionEntry carries `expiry = 2029-12-30`. -/
theorem C6_retention_expiry (customer_id resource_type resource_id : String)
    (data_category : DataCategory) (created_at : Date) (s : RetState) :
    ((scheduleDataForRetention customer_id data_category resource_type
        resource_id created_at s).2.entries.getLast?).map (·.expiry_date)
      = some ((retentionPolicies data_category).retention_days.map
          (created_at.addDays ·)) ∧
    Date.addDays ⟨2024, 1, 1⟩ 2190 = ⟨2029, 12, 30⟩ := by
  constructor
  · simp only [scheduleDataForRetention]
    rw [List.getLast?_concat]
    cases h : (retentionPolicies data_category).retention_days <;> simp [h]
  · decide

/-- C4: evaluating the deletion executor at the failing input.  When the
key service is unreachable, `delete_customer_key` reports the failure by
returning `False`; but `_execute_deletion`, whose crypto-erasure branch
discards that boolean, still returns `True` and still marks the
RetentionEntry `deleted`, while no key destruction was scheduled — the
deletion claims success although the data was not cryptographically
erased. -/
theorem C4_key_destruction_failure_swallowed (item : RetentionEntry)
    (reason : String) (s : RetState)
    (hreach : s.keyService.reachable = false) :
    deleteCustomerKey item.customer_id s.keyService
      = (false, s.keyService) ∧
    (executeDeletion item .cryptoErasure reason s).1 = true ∧
    (executeDeletion item .cryptoErasure reason s).2.keyService.scheduledDeletions
      = s.keyService.scheduledDeletions ∧
    (executeDeletion item .cryptoErasure reason s).2.entries
      = s.entries.map (fun e =>
          if e.retention_id == item.retention_id then
            { e with
                status := "deleted"
                deleted_at := some s.now
                deletion_method := "crypto_erasure"
                deletion_reason := some reason }
          else e) := by
  refine ⟨?_, ?_, ?_, ?_⟩ <;>
    simp [executeDeletion, deleteCustomerKey, hreach, DeletionMethod.val]

theorem C4_key_destruction_failure_swallowed_witness :
    (KeyService.reachable ⟨false, [], []⟩ = false) ∧
    (deleteCustomerKey "t1" (⟨false, [], []⟩ : KeyService)
      = (false, ⟨false, [], []⟩) ∧
    (executeDeletion
      ⟨"t1#scan_data#r1", "t1", "phi", "scan_data", "r1", ⟨2018, 1, 1⟩,
       some ⟨2024, 1, 1⟩, "hipaa_minimum", "crypto_erasure", true,
       "comprehensive", "active", none, none⟩
      .cryptoErasure "expired"
      ⟨[⟨"t1#scan_data#r1", "t1", "phi", "scan_data", "r1", ⟨2018, 1, 1⟩,
         some ⟨2024, 1, 1⟩, "hipaa_minimum", "crypto_erasure", true,
         "comprehensive", "active", none, none⟩],
        [], [], [], ⟨false, [], []⟩, ⟨2024, 6, 1⟩⟩).1 = true ∧
    (executeDeletion
      ⟨"t1#scan_data#r1", "t1", "phi", "scan_data", "r1", ⟨2018, 1, 1⟩,
       some ⟨2024, 1, 1⟩, "hipaa_minimum", "crypto_erasure", true,
       "comprehensive", "active", none, none⟩
      .cryptoErasure "expired"
      ⟨[⟨"t1#scan_data#r1", "t1", "phi", "scan_data", "r1", ⟨2018, 1, 1⟩,
         some ⟨2024, 1, 1⟩, "hipaa_minimum", "crypto_erasure", true,
         "comprehensive", "active", none, none⟩],
        [], [], [], ⟨false, [], []⟩, ⟨2024, 6, 1⟩⟩).2.keyService.scheduledDeletions
      = [] ∧
    (executeDeletion
      ⟨"t1#scan_data#r1", "t1", "phi", "scan_data", "r1", ⟨2018, 1, 1⟩,
       some ⟨2024, 1, 1⟩, "hipaa_minimum", "crypto_erasure", true,
       "comprehensive", "active", none, none⟩
      .cryptoErasure "expired"
      ⟨[⟨"t1#scan_data#r1", "t1", "phi", "scan_data", "r1", ⟨2018, 1, 1⟩,
         some ⟨2024, 1, 1⟩, "hipaa_minimum", "crypto_erasure", true,
         "comprehensive", "active", none, none⟩],
        [], [], [], ⟨false, [], []⟩, ⟨2024, 6, 1⟩⟩).2.entries
      = [⟨"t1#scan_data#r1", "t1", "phi", "scan_data", "r1", ⟨2018, 1, 1⟩,
         some ⟨2024, 1, 1⟩, "hipaa_minimum", "crypto_erasure", true,
         "comprehensive", "active", none, none⟩].map (fun e =>
          if e.retention_id == "t1#scan_data#r1" then
            { e with
                status := "deleted"
                deleted_at := some ⟨2024, 6, 1⟩
                deletion_method := "crypto_erasure"
                deletion_reason := some "expired" }
          else e)) :=
  ⟨rfl,
   C4_key_destruction_failure_swallowed
     ⟨"t1#scan_data#r1", "t1", "phi", "scan_data", "r1", ⟨2018, 1, 1⟩,
      some ⟨2024, 1, 1⟩, "hipaa_minimum", "crypto_erasure", true,
      "comprehensive", "active", none, none⟩
     "expired"
     ⟨[⟨"t1#scan_data#r1", "t1", "phi", "scan_data", "r1", ⟨2018, 1, 1⟩,
        some ⟨2024, 1, 1⟩, "hipaa_minimum", "crypto_erasure", true,
        "comprehensive", "active", none, none⟩],
       [], [], [], ⟨false, [], []⟩, ⟨2024, 6, 1⟩⟩
     rfl⟩

theorem hardDeleteResource_proj (c t r : String) (s : RetState) :
    (hardDeleteResource c t r s).entries = s.entries ∧
    (hardDeleteResource c t r s).queue = s.queue ∧
    (hardDeleteResource c t r s).keyService = s.keyService := by
  unfold hardDeleteResource
  dsimp only
  split <;> exact ⟨rfl, rfl, rfl⟩

theorem softDeleteResource_proj (c t r : String) (s : RetState) :
    (softDeleteResource c t r s).entries = s.entries ∧
    (softDeleteResource c t r s).queue = s.queue ∧
    (softDeleteResource c t r s).keyService = s.keyService ∧
    (softDeleteResource c t r s).objects = s.objects := by
  unfold softDeleteResource
  split <;> exact ⟨rfl, rfl, rfl, rfl⟩

theorem executeDeletion_queue (item : RetentionEntry) (m : DeletionMethod)
    (reason : String) (s : RetState) :
    (executeDeletion item m reason s).2.queue = s.queue := by
  cases m <;>
    simp [executeDeletion,
      (hardDeleteResource_proj item.customer_id item.resource_type
        item.resource_id s).2.1,
      (softDeleteResource_proj item.customer_id item.resource_type
        item.resource_id s).2.1]

theorem executeDeletion_mem_entries (item : RetentionEntry)
    (m : DeletionMethod) (reason : String) (s : RetState)
    (e : RetentionEntry) (he : e ∈ s.entries)
    (hne : e.retention_id ≠ item.retention_id) :
    e ∈ (executeDeletion item m reason s).2.entries := by
  have hguard : (e.retention_id == item.retention_id) = false := by
    simpa using hne
  cases m <;>
    · simp only [executeDeletion,
        (hardDeleteResource_proj item.customer_id item.resource_type
          item.resource_id s).1,
        (softDeleteResource_proj item.customer_id item.resource_type
          item.resource_id s).1]
      exact List.mem_map.mpr ⟨e, he, by simp [hguard]⟩

theorem executeDeletion_mem_resources (item : RetentionEntry)
    (m : DeletionMethod) (reason : String) (s : RetState)
    (res : RetResource) (hr : res ∈ s.resources)
    (hne : ¬(item.customer_id = res.customer_id ∧
      item.resource_type = res.resource_type ∧
      item.resource_id = res.resource_id)) :
    res ∈ (executeDeletion item m reason s).2.resources := by
  have hprop : ¬(res.customer_id = item.customer_id ∧
      res.resource_type = item.resource_type ∧
      res.resource_id = item.resource_id) :=
    fun h => hne ⟨h.1.symm, h.2.1.symm, h.2.2.symm⟩
  have hpred : (res.customer_id == item.customer_id &&
      res.resource_type == item.resource_type &&
      res.resource_id == item.resource_id) = false := by
    cases hb : (res.customer_id == item.customer_id &&
      res.resource_type == item.resource_type &&
      res.resource_id == item.resource_id) with
    | false => rfl
    | true =>
      exact absurd (by simpa [Bool.and_eq_true, beq_iff_eq, and_assoc] using hb)
        hprop
  cases m with
  | cryptoErasure => simpa [executeDeletion] using hr
  | hardDelete =>
    simp only [executeDeletion, hardDeleteResource]
    split
    · exact List.mem_filter.mpr ⟨hr, by simp [hpred]⟩
    · exact hr
  | softDelete =>
    simp only [executeDeletion, softDeleteResource]
    split
    · exact List.mem_map.mpr ⟨res, hr, by simp [hpred]⟩
    · exact hr

theorem executeDeletion_mem_objects (item : RetentionEntry)
    (m : DeletionMethod) (reason : String) (s : RetState)
    (ob : String × String × String) (ho : ob ∈ s.objects)
    (hne : ¬(item.customer_id = ob.1 ∧ item.resource_type = ob.2.1 ∧
      item.resource_id = ob.2.2)) :
    ob ∈ (executeDeletion item m reason s).2.objects := by
  have hprop : ¬(ob.1 = item.customer_id ∧ ob.2.1 = item.resource_type ∧
      ob.2.2 = item.resource_id) :=
    fun h => hne ⟨h.1.symm, h.2.1.symm, h.2.2.symm⟩
  have hpred : (ob.1 == item.customer_id && ob.2.1 == item.resource_type &&
      ob.2.2 == item.resource_id) = false := by
    cases hb : (ob.1 == item.customer_id && ob.2.1 == item.resource_type &&
      ob.2.2 == item.resource_id) with
    | false => rfl
    | true =>
      exact absurd (by simpa [Bool.and_eq_true, beq_iff_eq, and_assoc] using hb)
        hprop
  cases m with
  | cryptoErasure => simpa [executeDeletion] using ho
  | hardDelete =>
    simp only [executeDeletion, hardDeleteResource]
    split <;> exact List.mem_filter.mpr ⟨ho, by simp [hpred]⟩
  | softDelete =>
    simpa [executeDeletion,
      (softDeleteResource_proj item.customer_id item.resource_type
        item.resource_id s).2.2.2] using ho

theorem processAutomaticDeletion_props (it : RetentionEntry) (s : RetState)
    (entry : RetentionEntry)
    (hneid : entry.retention_id ≠ it.retention_id)
    (hnetr : ¬(it.customer_id = entry.customer_id ∧
      it.resource_type = entry.resource_type ∧
      it.resource_id = entry.resource_id)) :
    (entry ∈ s.entries →
      entry ∈ (processAutomaticDeletion it s).2.entries) ∧
    (∀ res ∈ s.resources, res.customer_id = entry.customer_id →
      res.resource_type = entry.resource_type →
      res.resource_id = entry.resource_id →
      res ∈ (processAutomaticDeletion it s).2.resources) ∧
    (∀ ob ∈ s.objects, ob.1 = entry.customer_id →
      ob.2.1 = entry.resource_type → ob.2.2 = entry.resource_id →
      ob ∈ (processAutomaticDeletion it s).2.objects) ∧
    (processAutomaticDeletion it s).2.queue = s.queue := by
  unfold processAutomaticDeletion
  cases hdm : deletionMethodOfString it.deletion_method with
  | none => exact ⟨id, fun res h _ _ _ => h, fun ob h _ _ _ => h, rfl⟩
  | some m =>
    exact ⟨fun he => executeDeletion_mem_entries it m _ s entry he hneid,
      fun res hres hc ht hr =>
        executeDeletion_mem_resources it m _ s res hres
          (fun hcon =>
            hnetr ⟨hcon.1.trans hc, hcon.2.1.trans ht, hcon.2.2.trans hr⟩),
      fun ob hob hc ht hr =>
        executeDeletion_mem_objects it m _ s ob hob
          (fun hcon =>
            hnetr ⟨hcon.1.trans hc, hcon.2.1.trans ht, hcon.2.2.trans hr⟩),
      executeDeletion_queue it m _ s⟩

/-- One sweep step neither removes an approval-required entry distinct
from the processed item, nor touches that entry's stored resource or
objects, nor drops anything from the queue; processing the entry itself
enqueues its pending-approval item. -/
theorem sweepItem_step (entry : RetentionEntry)
    (happr : entry.requires_approval = true)
    (it : RetentionEntry) (acc : SweepSummary × RetState)
    (hid : it.retention_id = entry.retention_id → it = entry)
    (htr : it ≠ entry →
      ¬(it.customer_id = entry.customer_id ∧
        it.resource_type = entry.resource_type ∧
        it.resource_id = entry.resource_id)) :
    (entry ∈ acc.2.entries → entry ∈ (sweepItem acc it).2.entries) ∧
    (∀ res ∈ acc.2.resources, res.customer_id = entry.customer_id →
      res.resource_type = entry.resource_type →
      res.resource_id = entry.resource_id →
      res ∈ (sweepItem acc it).2.resources) ∧
    (∀ ob ∈ acc.2.objects, ob.1 = entry.customer_id →
      ob.2.1 = entry.resource_type → ob.2.2 = entry.resource_id →
      ob ∈ (sweepItem acc it).2.objects) ∧
    (∀ q ∈ acc.2.queue, q ∈ (sweepItem acc it).2.queue) ∧
    (it = entry → ∃ q ∈ (sweepItem acc it).2.queue,
      q.retention_id = entry.retention_id ∧
      q.status = "pending_approval" ∧
      q.requires_approval = some true ∧
      q.deletion_method = entry.deletion_method) := by
  cases hra : it.requires_approval with
  | true =>
    refine ⟨fun he => by simpa [sweepItem, hra, queueForApproval] using he,
      fun res h _ _ _ => by simpa [sweepItem, hra, queueForApproval] using h,
      fun ob h _ _ _ => by simpa [sweepItem, hra, queueForApproval] using h,
      fun q hq => by
        simp only [sweepItem, hra, if_true, queueForApproval]
        exact List.mem_append_left _ hq,
      fun heq => ?_⟩
    subst heq
    refine ⟨⟨"approval-" ++ it.retention_id, it.retention_id, it.customer_id,
      it.resource_type, it.resource_id, some it.data_category,
      it.expiry_date, "pending_approval", some true, it.deletion_method,
      none⟩, ?_, rfl, rfl, rfl, rfl⟩
    simp [sweepItem, hra, queueForApproval]
  | false =>
    have hne : it ≠ entry := fun heq => by
      rw [heq, happr] at hra; cases hra
    have hneid : entry.retention_id ≠ it.retention_id := fun h => by
      exact hne (hid h.symm)
    have hnetr := htr hne
    have hprops := processAutomaticDeletion_props it acc.2 entry hneid hnetr
    cases hr : (processAutomaticDeletion it acc.2).1 with
    | true =>
      refine ⟨fun he => by
          simpa [sweepItem, hra, hr] using hprops.1 he,
        fun res h hc ht hri => by
          simpa [sweepItem, hra, hr] using hprops.2.1 res h hc ht hri,
        fun ob h hc ht hri => by
          simpa [sweepItem, hra, hr] using hprops.2.2.1 ob h hc ht hri,
        fun q hq => by
          simp only [sweepItem, hra, Bool.false_eq_true, if_false, hr,
            if_true]
          rw [hprops.2.2.2]
          exact hq,
        fun heq => absurd heq hne⟩
    | false =>
      refine ⟨fun he => by
          simpa [sweepItem, hra, hr, queueForRetry] using hprops.1 he,
        fun res h hc ht hri => by
          simpa [sweepItem, hra, hr, queueForRetry] using
            hprops.2.1 res h hc ht hri,
        fun ob h hc ht hri => by
          simpa [sweepItem, hra, hr, queueForRetry] using
            hprops.2.2.1 ob h hc ht hri,
        fun q hq => by
          simp only [sweepItem, hra, Bool.false_eq_true, if_false, hr,
            queueForRetry]
          exact List.mem_append_left _ (hprops.2.2.2 ▸ hq),
        fun heq => absurd heq hne⟩

/-- The sweep loop, folded over any list of items each of which is either
the approval-required entry itself or unrelated to it, preserves the
entry, its resource and its objects, extends the queue monotonically, and
enqueues the pending-approval item when the entry is among the items. -/
theorem sweep_fold_inv (entry : RetentionEntry)
    (happr : entry.requires_approval = true) (its : List RetentionEntry) :
    ∀ acc : SweepSummary × RetState,
      (∀ it ∈ its, it.retention_id = entry.retention_id → it = entry) →
      (∀ it ∈ its, it ≠ entry →
        ¬(it.customer_id = entry.customer_id ∧
          it.resource_type = entry.resource_type ∧
          it.resource_id = entry.resource_id)) →
      (entry ∈ acc.2.entries →
        entry ∈ (its.foldl sweepItem acc).2.entries) ∧
      (∀ res ∈ acc.2.resources, res.customer_id = entry.customer_id →
        res.resource_type = entry.resource_type →
        res.resource_id = entry.resource_id →
        res ∈ (its.foldl sweepItem acc).2.resources) ∧
      (∀ ob ∈ acc.2.objects, ob.1 = entry.customer_id →
        ob.2.1 = entry.resource_type → ob.2.2 = entry.resource_id →
        ob ∈ (its.foldl sweepItem acc).2.objects) ∧
      (∀ q ∈ acc.2.queue, q ∈ (its.foldl sweepItem acc).2.queue) ∧
      (entry ∈ its → ∃ q ∈ (its.foldl sweepItem acc).2.queue,
        q.retention_id = entry.retention_id ∧
        q.status = "pending_approval" ∧
        q.requires_approval = some true ∧
        q.deletion_method = entry.deletion_method) := by
  induction its with
  | nil =>
    intro acc _ _
    exact ⟨id, fun res h _ _ _ => h, fun ob h _ _ _ => h,
      fun q h => h, fun h => absurd h (List.not_mem_nil entry)⟩
  | cons it its ih =>
    intro acc hits htrs
    have hstep := sweepItem_step entry happr it acc
      (hits it (List.mem_cons_self it its))
      (htrs it (List.mem_cons_self it its))
    have hrec := ih (sweepItem acc it)
      (fun x hx => hits x (List.mem_cons_of_mem it hx))
      (fun x hx => htrs x (List.mem_cons_of_mem it hx))
    rw [List.foldl_cons]
    refine ⟨fun he => hrec.1 (hstep.1 he),
      fun res h hc ht hri => hrec.2.1 res (hstep.2.1 res h hc ht hri) hc ht hri,
      fun ob h hc ht hri => hrec.2.2.1 ob (hstep.2.2.1 ob h hc ht hri) hc ht hri,
      fun q hq => hrec.2.2.2.1 q (hstep.2.2.2.1 q hq),
      fun hmem => ?_⟩
    rcases List.mem_cons.mp hmem with heq | hmem'
    · rcases hstep.2.2.2.2 heq.symm with ⟨q, hq, hprops⟩
      exact ⟨q, hrec.2.2.2.1 q hq, hprops⟩
    · exact hrec.2.2.2.2 hmem'

/-- C5: an expired, active retention entry whose policy requires approval
is routed by the sweep (`process_expired_data`) to the deletion queue as a
`pending_approval` item carrying its deletion method; the sweep leaves the
entry itself in the ledger unchanged (still `active`) and neither removes
nor soft-deletes its stored resource or objects — the sweep never executes
the deletion directly.  The two uniqueness hypotheses are the table
invariants: retention ids are unique and distinct entries track distinct
resources. -/
theorem C5_approval_required_not_swept (s : RetState)
    (entry : RetentionEntry) (d : Date)
    (hmem : entry ∈ s.entries) (hact : entry.status = "active")
    (hd : entry.expiry_date = some d) (hle : Date.le d s.now = true)
    (happr : entry.requires_approval = true)
    (hid : ∀ e ∈ s.entries, e.retention_id = entry.retention_id → e = entry)
    (htr : ∀ e ∈ s.entries, e ≠ entry →
      ¬(e.customer_id = entry.customer_id ∧
        e.resource_type = entry.resource_type ∧
        e.resource_id = entry.resource_id)) :
    (∃ q ∈ (processExpiredData s).2.queue,
      q.retention_id = entry.retention_id ∧
      q.status = "pending_approval" ∧
      q.requires_approval = some true ∧
      q.deletion_method = entry.deletion_method) ∧
    entry ∈ (processExpiredData s).2.entries ∧
    (∀ res ∈ s.resources, res.customer_id = entry.customer_id →
      res.resource_type = entry.resource_type →
      res.resource_id = entry.resource_id →
      res ∈ (processExpiredData s).2.resources) ∧
    (∀ ob ∈ s.objects, ob.1 = entry.customer_id →
      ob.2.1 = entry.resource_type → ob.2.2 = entry.resource_id →
      ob ∈ (processExpiredData s).2.objects) := by
  unfold processExpiredData
  have hsubset : ∀ it ∈ s.entries.filter (fun e =>
      (match e.expiry_date with
       | some d => Date.le d s.now
       | none => false) && e.status == "active"), it ∈ s.entries :=
    fun it h => List.mem_of_mem_filter h
  have hinv := sweep_fold_inv entry happr
    (s.entries.filter (fun e =>
      (match e.expiry_date with
       | some d => Date.le d s.now
       | none => false) && e.status == "active"))
    (⟨(s.entries.filter (fun e =>
      (match e.expiry_date with
       | some d => Date.le d s.now
       | none => false) && e.status == "active")).length, 0, 0, 0, 0⟩, s)
    (fun it h => hid it (hsubset it h))
    (fun it h => htr it (hsubset it h))
  have hmem2 : entry ∈ s.entries.filter (fun e =>
      (match e.expiry_date with
       | some d => Date.le d s.now
       | none => false) && e.status == "active") :=
    List.mem_filter.mpr ⟨hmem, by simp [hd, hle, hact]⟩
  exact ⟨hinv.2.2.2.2 hmem2, hinv.1 hmem, hinv.2.1, hinv.2.2.1⟩

theorem C5_approval_required_not_swept_witness :
    (c5Entry ∈ c5State.entries ∧ c5Entry.status = "active" ∧
     c5Entry.expiry_date = some ⟨2024, 1, 1⟩ ∧
     Date.le ⟨2024, 1, 1⟩ c5State.now = true ∧
     c5Entry.requires_approval = true ∧
     (∀ e ∈ c5State.entries,
       e.retention_id = c5Entry.retention_id → e = c5Entry) ∧
     (∀ e ∈ c5State.entries, e ≠ c5Entry →
       ¬(e.customer_id = c5Entry.customer_id ∧
         e.resource_type = c5Entry.resource_type ∧
         e.resource_id = c5Entry.resource_id))) ∧
    ((∃ q ∈ (processExpiredData c5State).2.queue,
      q.retention_id = c5Entry.retention_id ∧
      q.status = "pending_approval" ∧
      q.requires_approval = some true ∧
      q.deletion_method = c5Entry.deletion_method) ∧
     c5Entry ∈ (processExpiredData c5State).2.entries ∧
     (∀ res ∈ c5State.resources, res.customer_id = c5Entry.customer_id →
       res.resource_type = c5Entry.resource_type →
       res.resource_id = c5Entry.resource_id →
       res ∈ (processExpiredData c5State).2.resources) ∧
     (∀ ob ∈ c5State.objects, ob.1 = c5Entry.customer_id →
       ob.2.1 = c5Entry.resource_type → ob.2.2 = c5Entry.resource_id →
       ob ∈ (processExpiredData c5State).2.objects)) :=
  ⟨⟨by decide, by decide, by decide, by decide, by decide, by decide,
    by decide⟩,
   C5_approval_required_not_swept c5State c5Entry ⟨2024, 1, 1⟩
     (by decide) (by decide) (by decide) (by decide) (by decide)
     (by decide) (by decide)⟩

end CompliantGuard
